import Mathlib

/-!
Shallow embedding of the query/context core of the whatsapp-mcp Go server
(main.go): the relational store is a pair of row lists, each SQL query is
translated clause by clause into list operations, and every operation the
claims mention is reproduced as an executable Lean function.

Modelling conventions, fixed once for the whole file:
* Stored timestamps are the raw text SQLite holds; SQLite's BINARY text
  comparison is `strLe` / `strLt` (codepoint-lexicographic, which agrees with
  byte order on the ASCII timestamps at issue).
* Go's `time.Parse(time.RFC3339, s)` is modelled by `parseTime`, which accepts
  exactly the canonical UTC form YYYY-MM-DDTHH:MM:SSZ and represents the
  parsed time.Time value by that canonical string itself, so chronological
  order on parsed values is string order on their canonical text.
* SQLite LIKE with a pattern of the shape %x% combined with LOWER is modelled
  by ASCII-case-insensitive substring containment (`likeContains`), and LIKE
  with a %x pattern by `likeEndsWith`; SQLite's LIKE is itself
  ASCII-case-insensitive.
* ORDER BY is a deterministic sort (`List.insertionSort`); the spec leaves tie
  order implementation-defined and no claim below depends on it.
* A query whose SELECT list references a table that its FROM/JOIN clauses do
  not bring into scope is rejected by SQLite ("no such column"); for the one
  operation where this matters the SQL text itself is transcribed
  (`listChatsQuery`, `getChatQuery`) so the defect is visible in the string.
-/

/-! ### SQLite text comparison (BINARY collation) -/

/-- Codepoint-lexicographic comparison of character lists: the order SQLite's
BINARY collation gives the stored ASCII timestamp texts. -/
def listCharLe : List Char → List Char → Bool
  | [], _ => true
  | _ :: _, [] => false
  | a :: as, b :: bs => if a = b then listCharLe as bs else decide (a < b)

/-- SQLite text comparison on strings, non-strict. -/
def strLe (a b : String) : Bool := listCharLe a.data b.data

/-- SQLite text comparison on strings, strict. -/
def strLt (a b : String) : Bool := !(strLe b a)

theorem listCharLe_refl (a : List Char) : listCharLe a a = true := by
  induction a with
  | nil => rfl
  | cons c cs ih => simp [listCharLe, ih]

theorem listCharLe_total (a b : List Char) :
    listCharLe a b = true ∨ listCharLe b a = true := by
  induction a generalizing b with
  | nil => left; rfl
  | cons x xs ih =>
    cases b with
    | nil => right; rfl
    | cons y ys =>
      by_cases hxy : x = y
      · subst hxy
        simpa [listCharLe] using ih ys
      · rcases lt_trichotomy x y with h | h | h
        · left; simp [listCharLe, hxy, h]
        · exact absurd h hxy
        · right; simp [listCharLe, Ne.symm hxy, h, not_lt_of_gt h]

theorem listCharLe_trans {a b c : List Char} (h₁ : listCharLe a b = true)
    (h₂ : listCharLe b c = true) : listCharLe a c = true := by
  induction a generalizing b c with
  | nil => rfl
  | cons x xs ih =>
    cases b with
    | nil => simp [listCharLe] at h₁
    | cons y ys =>
      cases c with
      | nil => simp [listCharLe] at h₂
      | cons z zs =>
        by_cases hxy : x = y <;> by_cases hyz : y = z
        · subst hxy; subst hyz
          simp only [listCharLe, if_pos rfl] at h₁ h₂ ⊢
          exact ih h₁ h₂
        · subst hxy
          simp only [listCharLe, if_pos rfl, if_neg hyz] at h₂ ⊢
          exact h₂
        · subst hyz
          simp only [listCharLe, if_pos rfl, if_neg hxy] at h₁ ⊢
          exact h₁
        · simp only [listCharLe, if_neg hxy, if_neg hyz, decide_eq_true_eq] at h₁ h₂
          by_cases hxz : x = z
          · subst hxz; exact absurd (h₁.trans h₂) (lt_irrefl x)
          · simp [listCharLe, if_neg hxz, h₁.trans h₂]

theorem listCharLe_antisymm {a b : List Char} (h₁ : listCharLe a b = true)
    (h₂ : listCharLe b a = true) : a = b := by
  induction a generalizing b with
  | nil =>
    cases b with
    | nil => rfl
    | cons y ys => simp [listCharLe] at h₂
  | cons x xs ih =>
    cases b with
    | nil => simp [listCharLe] at h₁
    | cons y ys =>
      by_cases hxy : x = y
      · subst hxy
        simp only [listCharLe, if_pos rfl] at h₁ h₂
        rw [ih h₁ h₂]
      · simp only [listCharLe, if_neg hxy, decide_eq_true_eq] at h₁
        simp only [listCharLe, if_neg (Ne.symm hxy), decide_eq_true_eq] at h₂
        exact absurd (h₁.trans h₂) (lt_irrefl x)

theorem strLe_refl (a : String) : strLe a a = true := listCharLe_refl _

theorem strLe_total (a b : String) : strLe a b = true ∨ strLe b a = true :=
  listCharLe_total _ _

theorem strLe_trans {a b c : String} (h₁ : strLe a b = true)
    (h₂ : strLe b c = true) : strLe a c = true := listCharLe_trans h₁ h₂

theorem strLe_antisymm {a b : String} (h₁ : strLe a b = true)
    (h₂ : strLe b a = true) : a = b := by
  cases a with
  | mk da =>
    cases b with
    | mk db => exact congrArg String.mk (listCharLe_antisymm h₁ h₂)

theorem strLe_of_strLt {a b : String} (h : strLt a b = true) : strLe a b = true := by
  rcases strLe_total a b with h' | h'
  · exact h'
  · simp [strLt, h'] at h

theorem strLt_trans_right {a b c : String} (h₁ : strLe a b = true)
    (h₂ : strLt b c = true) : strLt a c = true := by
  rcases Bool.eq_false_or_eq_true (strLe c a) with h | h
  · have hcb : strLe c b = true := strLe_trans h h₁
    simp [strLt, hcb] at h₂
  · simp [strLt, h]

/-! ### ASCII lowering, LIKE-style containment, local part -/

/-- ASCII lower-casing of one character, the folding SQLite's LOWER and its
case-insensitive LIKE apply. -/
def asciiLower (c : Char) : Char :=
  if 'A' ≤ c ∧ c ≤ 'Z' then Char.ofNat (c.toNat + 32) else c

/-- ASCII lower-casing of a string. -/
def lowerStr (s : String) : String := ⟨s.data.map asciiLower⟩

/-- Bool test that the second list is an initial segment of the first. -/
def startsWithChars : List Char → List Char → Bool
  | _, [] => true
  | [], _ :: _ => false
  | a :: as, b :: bs => a == b && startsWithChars as bs

/-- Bool test that the second list occurs contiguously inside the first. -/
def hasSubChars : List Char → List Char → Bool
  | [], needle => needle.isEmpty
  | a :: as, needle => startsWithChars (a :: as) needle || hasSubChars as needle

/-- Substring containment on strings (case-sensitive). -/
def containsSub (hay needle : String) : Bool := hasSubChars hay.data needle.data

/-- Model of SQLite `LOWER(hay) LIKE LOWER('%needle%')` (and of the bare
case-insensitive `hay LIKE '%needle%'`): ASCII-case-insensitive containment. -/
def likeContains (hay needle : String) : Bool :=
  containsSub (lowerStr hay) (lowerStr needle)

/-- Bool test that the second list is a final segment of the first. -/
def endsWithChars (hay needle : List Char) : Bool :=
  startsWithChars hay.reverse needle.reverse

/-- Model of SQLite `hay LIKE '%needle'`: ASCII-case-insensitive suffix test. -/
def likeEndsWith (hay needle : String) : Bool :=
  endsWithChars (lowerStr hay).data (lowerStr needle).data

/-- Characters before the first `@`, the whole list when `@` is absent. -/
def beforeAt : List Char → List Char
  | [] => []
  | c :: cs => if c = '@' then [] else c :: beforeAt cs

/-- Go `strings.Contains(jid, "@")` test followed by
`strings.Split(jid, "@")[0]`, as in `getSenderName`. -/
def localPart (s : String) : String :=
  if s.data.contains '@' then ⟨beforeAt s.data⟩ else s

/-! ### Timestamp model -/

/-- ASCII digit test. -/
def isDigitChar (c : Char) : Bool := '0' ≤ c && c ≤ '9'

/-- Shape test for the canonical UTC RFC3339 form YYYY-MM-DDTHH:MM:SSZ. -/
def isCanonTS (s : String) : Bool :=
  match s.data with
  | [y1, y2, y3, y4, p1, o1, o2, p2, d1, d2, t, h1, h2, q1, n1, n2, q2, e1, e2, z] =>
    isDigitChar y1 && isDigitChar y2 && isDigitChar y3 && isDigitChar y4 &&
    p1 == '-' && isDigitChar o1 && isDigitChar o2 && p2 == '-' &&
    isDigitChar d1 && isDigitChar d2 && t == 'T' &&
    isDigitChar h1 && isDigitChar h2 && q1 == ':' &&
    isDigitChar n1 && isDigitChar n2 && q2 == ':' &&
    isDigitChar e1 && isDigitChar e2 && z == 'Z'
  | _ => false

/-- Model of Go `time.Parse(time.RFC3339, s)`: succeeds exactly on the
canonical UTC form and represents the parsed time.Time by its canonical
text. -/
def parseTime (s : String) : Option String :=
  if isCanonTS s then some s else none

/-- Model of Go `Timestamp.Format("2006-01-02 15:04:05")` applied to a
canonical UTC timestamp: drop the trailing Z and replace the T separator by a
space. -/
def fmtDisplay (t : String) : String :=
  ⟨(t.data.take 19).map (fun c => if c = 'T' then ' ' else c)⟩

/-! ### Data model: stored rows, joined rows, results -/

/-- One row of the messages table. -/
structure MsgRow where
  timestamp : String
  sender : String
  content : String
  is_from_me : Bool
  chat_jid : String
  id : String
  media_type : Option String
deriving DecidableEq

/-- One row of the chats table; jid is its primary key. -/
structure ChatRow where
  jid : String
  name : Option String
  last_message_time : Option String
deriving DecidableEq

/-- The relational store populated by the external bridge. -/
structure Store where
  chats : List ChatRow
  messages : List MsgRow

/-- One row of `messages JOIN chats ON messages.chat_jid = chats.jid` with the
columns the message queries select. -/
structure JRow where
  timestamp : String
  sender : String
  chatName : Option String
  content : String
  is_from_me : Bool
  chat_jid : String
  id : String
  media_type : Option String
deriving DecidableEq

/-- The Go Message struct; `timestamp` holds the parsed (canonical) text. -/
structure Message where
  timestamp : String
  sender : String
  content : String
  is_from_me : Bool
  chat_jid : String
  id : String
  chatName : Option String
  media_type : Option String
deriving DecidableEq

/-- Errors surfaced by the query layer, one constructor per Go error site. -/
inductive QErr where
  | invalidDate (field val : String)
  | parseError (ts : String)
  | messageNotFound (id : String)
deriving DecidableEq

/-- The inner join of messages with chats; `chats.jid` is a primary key, so
`find?` returns the unique matching chat row. A message whose chat is missing
is dropped by the join. -/
def joinRows (s : Store) : List JRow :=
  s.messages.filterMap fun m =>
    (s.chats.find? (fun c => c.jid == m.chat_jid)).map fun c =>
      { timestamp := m.timestamp, sender := m.sender, chatName := c.name,
        content := m.content, is_from_me := m.is_from_me, chat_jid := c.jid,
        id := m.id, media_type := m.media_type }

/-! ### Sender resolution and formatting (Go getSenderName, formatMessage) -/

/-- Second stage of `getSenderName`: substring match of the local part against
chat jids (SQLite LIKE, case-insensitive), returning the first row's name when
it is present and non-empty. -/
def getSenderNameFallback (s : Store) (senderJID : String) : String :=
  match s.chats.find? (fun c => likeContains c.jid (localPart senderJID)) with
  | some c =>
    match c.name with
    | some n => if n = "" then senderJID else n
    | none => senderJID
  | none => senderJID

/-- Go `getSenderName`: exact-jid lookup first (a NULL or empty name falls
through, since scanning NULL into a Go string errors), then the LIKE
fallback, then the input itself. -/
def getSenderName (s : Store) (senderJID : String) : String :=
  match s.chats.find? (fun c => c.jid == senderJID) with
  | some c =>
    match c.name with
    | some n => if n = "" then getSenderNameFallback s senderJID else n
    | none => getSenderNameFallback s senderJID
  | none => getSenderNameFallback s senderJID

/-- The sender text `formatMessage` prints: the literal Me for own messages,
otherwise the resolved name. -/
def senderDisplay (s : Store) (m : Message) : String :=
  if m.is_from_me then "Me" else getSenderName s m.sender

/-- The media bracket of `formatMessage`, emitted only for a non-empty media
type. -/
def contentPrefixOf (m : Message) : String :=
  match m.media_type with
  | some mt =>
    if mt = "" then ""
    else "[" ++ mt ++ " - Message ID: " ++ m.id ++ " - Chat JID: " ++ m.chat_jid ++ "] "
  | none => ""

/-- Go `formatMessage`. -/
def formatMessage (s : Store) (m : Message) (showChatInfo : Bool) : String :=
  let head :=
    match showChatInfo, m.chatName with
    | true, some cn => "[" ++ fmtDisplay m.timestamp ++ "] Chat: " ++ cn ++ " "
    | _, _ => "[" ++ fmtDisplay m.timestamp ++ "] "
  head ++ "From: " ++ senderDisplay s m ++ ": " ++ contentPrefixOf m ++ m.content ++ "\n"

/-- Go `formatMessagesList`. -/
def formatMessagesList (s : Store) (ms : List Message) (showChatInfo : Bool) : String :=
  if ms.isEmpty then "No messages to display."
  else String.join (ms.map (fun m => formatMessage s m showChatInfo))

/-! ### Order relations used by the SQL ORDER BY clauses -/

/-- Messages ordered by stored timestamp descending. -/
def tsDesc (a b : JRow) : Prop := strLe b.timestamp a.timestamp = true

instance : DecidableRel tsDesc := fun a b =>
  inferInstanceAs (Decidable (strLe b.timestamp a.timestamp = true))

instance : IsTotal JRow tsDesc :=
  ⟨fun a b => by unfold tsDesc; exact strLe_total b.timestamp a.timestamp⟩

instance : IsTrans JRow tsDesc :=
  ⟨fun _ _ _ h₁ h₂ => strLe_trans h₂ h₁⟩

/-- Messages ordered by stored timestamp ascending. -/
def tsAsc (a b : JRow) : Prop := strLe a.timestamp b.timestamp = true

instance : DecidableRel tsAsc := fun a b =>
  inferInstanceAs (Decidable (strLe a.timestamp b.timestamp = true))

instance : IsTotal JRow tsAsc := ⟨fun a b => strLe_total a.timestamp b.timestamp⟩

instance : IsTrans JRow tsAsc := ⟨fun _ _ _ h₁ h₂ => strLe_trans h₁ h₂⟩

/-- Option-valued text comparison with NULL smallest, as SQLite orders NULL. -/
def optStrLe : Option String → Option String → Bool
  | none, _ => true
  | some _, none => false
  | some x, some y => strLe x y

theorem optStrLe_total (a b : Option String) :
    optStrLe a b = true ∨ optStrLe b a = true := by
  cases a <;> cases b <;> simp [optStrLe]
  exact strLe_total _ _

theorem optStrLe_trans {a b c : Option String} (h₁ : optStrLe a b = true)
    (h₂ : optStrLe b c = true) : optStrLe a c = true := by
  cases a <;> cases b <;> cases c <;> simp_all [optStrLe]
  exact strLe_trans h₁ h₂

theorem optStrLe_antisymm {a b : Option String} (h₁ : optStrLe a b = true)
    (h₂ : optStrLe b a = true) : a = b := by
  cases a <;> cases b <;> simp_all [optStrLe]
  exact strLe_antisymm h₁ h₂

/-! ### searchContacts -/

/-- The Go Contact struct. -/
structure Contact where
  phoneNumber : String
  name : Option String
  jid : String
deriving DecidableEq

/-- The WHERE clause of searchContacts: case-insensitive match of name or jid
against the query (a NULL name never matches, as SQL NULL is falsy) and the
group-suffix exclusion `jid NOT LIKE '%@g.us'`. -/
def searchContactsQueryPred (query : String) (c : ChatRow) : Bool :=
  ((match c.name with
    | some n => likeContains n query
    | none => false) || likeContains c.jid query) &&
  !(likeEndsWith c.jid "@g.us")

/-- ORDER BY name, jid with SQL NULL names first. -/
def contactOrd (a b : String × Option String) : Prop :=
  if a.2 = b.2 then strLe a.1 b.1 = true else optStrLe a.2 b.2 = true

instance : DecidableRel contactOrd := fun a b => by
  unfold contactOrd; infer_instance

instance : IsTotal (String × Option String) contactOrd :=
  ⟨fun a b => by
    unfold contactOrd
    by_cases h : a.2 = b.2
    · simp [h]; exact strLe_total _ _
    · simp [h, Ne.symm h]; exact optStrLe_total _ _⟩

instance : IsTrans (String × Option String) contactOrd :=
  ⟨fun a b c h₁ h₂ => by
    unfold contactOrd at h₁ h₂ ⊢
    by_cases hab : a.2 = b.2 <;> by_cases hbc : b.2 = c.2
    · rw [if_pos hab] at h₁
      rw [if_pos hbc] at h₂
      rw [if_pos (hab.trans hbc)]
      exact strLe_trans h₁ h₂
    · rw [if_pos hab] at h₁
      rw [if_neg hbc] at h₂
      rw [hab, if_neg hbc]
      exact h₂
    · rw [if_neg hab] at h₁
      rw [if_pos hbc] at h₂
      rw [← hbc, if_neg hab]
      exact h₁
    · rw [if_neg hab] at h₁
      rw [if_neg hbc] at h₂
      by_cases hac : a.2 = c.2
      · have hba : b.2 = a.2 :=
          (optStrLe_antisymm h₂ (hac ▸ h₁)).trans hac.symm
        exact absurd hba (Ne.symm hab)
      · rw [if_neg hac]
        exact optStrLe_trans h₁ h₂⟩

/-- Go searchContacts: SELECT DISTINCT jid, name with the WHERE clause above,
ORDER BY name, jid then LIMIT 50, finally projecting each row into a Contact
whose phone number is the part of the jid before the first at sign. -/
def searchContacts (s : Store) (query : String) : List Contact :=
  let rows := (s.chats.filter (searchContactsQueryPred query)).map (fun c => (c.jid, c.name))
  let sorted := List.insertionSort contactOrd rows.dedup
  (sorted.take 50).map (fun p => { phoneNumber := ⟨beforeAt p.1.data⟩, name := p.2, jid := p.1 })

/-! ### listMessages -/

/-- Optional filters of Go listMessages. -/
structure MsgFilter where
  after : Option String
  before : Option String
  sender : Option String
  chatJID : Option String
  query : Option String

/-- Parse of an optional time bound; a malformed value is the invalid-date
error naming the field and the offending literal. -/
def boundParam (field : String) (v : Option String) : Except QErr (Option String) :=
  match v with
  | none => .ok none
  | some a =>
    match parseTime a with
    | some t => .ok (some t)
    | none => .error (.invalidDate field a)

/-- Conjunction of the optional WHERE clauses of listMessages; the two time
bounds compare the stored text against the canonical text of the parsed
bound. -/
def msgPred (f : MsgFilter) (afterT beforeT : Option String) (r : JRow) : Bool :=
  (match afterT with | none => true | some t => strLt t r.timestamp) &&
  (match beforeT with | none => true | some t => strLt r.timestamp t) &&
  (match f.sender with | none => true | some x => r.sender == x) &&
  (match f.chatJID with | none => true | some x => r.chat_jid == x) &&
  (match f.query with | none => true | some q => likeContains r.content q)

/-- The full ordered result set of listMessages before LIMIT/OFFSET. -/
def sortedMatches (s : Store) (f : MsgFilter) (afterT beforeT : Option String) :
    List JRow :=
  List.insertionSort tsDesc ((joinRows s).filter (msgPred f afterT beforeT))

/-- The page of rows listMessages scans: ORDER BY timestamp DESC then
LIMIT limit OFFSET page * limit. -/
def listMessagesRows (s : Store) (f : MsgFilter) (limit page : Nat) :
    Except QErr (List JRow) :=
  match boundParam "after" f.after with
  | .error e => .error e
  | .ok afterT =>
    match boundParam "before" f.before with
    | .error e => .error e
    | .ok beforeT =>
      .ok (((sortedMatches s f afterT beforeT).drop (page * limit)).take limit)

/-- Scan of one row into a Message: the stored timestamp must parse, anything
else is copied across. -/
def rowToMessage (r : JRow) : Except QErr Message :=
  match parseTime r.timestamp with
  | none => .error (.parseError r.timestamp)
  | some t =>
    .ok { timestamp := t, sender := r.sender, content := r.content,
          is_from_me := r.is_from_me, chat_jid := r.chat_jid, id := r.id,
          chatName := r.chatName, media_type := r.media_type }

/-- The row-scan loop shared by the message queries: the first row whose
timestamp fails to parse aborts the whole call. -/
def rowsToMessages : List JRow → Except QErr (List Message)
  | [] => .ok []
  | r :: rs =>
    match rowToMessage r with
    | .error e => .error e
    | .ok m =>
      match rowsToMessages rs with
      | .error e => .error e
      | .ok ms => .ok (m :: ms)

/-- The matched messages of one listMessages call (before optional context
expansion and formatting). -/
def listMessagesMsgs (s : Store) (f : MsgFilter) (limit page : Nat) :
    Except QErr (List Message) :=
  match listMessagesRows s f limit page with
  | .error e => .error e
  | .ok rows => rowsToMessages rows

/-! ### getMessageContext -/

/-- Row-level context assembly: the target is the first joined row carrying
the id (any lookup failure is reported as message-not-found); the before
window is the bCount most recent strictly earlier same-chat rows in
descending order; the after window is the aCount earliest strictly later
same-chat rows in ascending order. -/
def getMessageContextRows (s : Store) (messageID : String) (bCount aCount : Nat) :
    Except QErr (JRow × List JRow × List JRow) :=
  match (joinRows s).find? (fun r => r.id == messageID) with
  | none => .error (.messageNotFound messageID)
  | some tr =>
    .ok (tr,
      (List.insertionSort tsDesc ((joinRows s).filter
        (fun r => r.chat_jid == tr.chat_jid && strLt r.timestamp tr.timestamp))).take bCount,
      (List.insertionSort tsAsc ((joinRows s).filter
        (fun r => r.chat_jid == tr.chat_jid && strLt tr.timestamp r.timestamp))).take aCount)

/-- The Go MessageContext struct. -/
structure MessageContext where
  message : Message
  before : List Message
  after : List Message
deriving DecidableEq

/-- Go getMessageContext: row-level assembly followed by the scans, each of
which surfaces a timestamp parse failure. -/
def getMessageContext (s : Store) (messageID : String) (bCount aCount : Nat) :
    Except QErr MessageContext :=
  match getMessageContextRows s messageID bCount aCount with
  | .error e => .error e
  | .ok (tr, br, ar) =>
    match rowToMessage tr with
    | .error e => .error e
    | .ok target =>
      match rowsToMessages br with
      | .error e => .error e
      | .ok bs =>
        match rowsToMessages ar with
        | .error e => .error e
        | .ok afters => .ok { message := target, before := bs, after := afters }

/-- One expansion of the includeContext loop of listMessages: the window of a
matched message, empty when the context call fails (the loop continues). -/
def contextWindow (s : Store) (messageID : String) (cb ca : Nat) : List Message :=
  match getMessageContext s messageID cb ca with
  | .error _ => []
  | .ok ctx => ctx.before ++ ctx.message :: ctx.after

/-- The includeContext loop of listMessages: windows of all matched messages
concatenated in matched order, with no de-duplication. -/
def expandWithContext (s : Store) (msgs : List Message) (cb ca : Nat) : List Message :=
  msgs.flatMap (fun m => contextWindow s m.id cb ca)

/-- Go listMessages including the context branch and final formatting. -/
def listMessages (s : Store) (f : MsgFilter) (limit page : Nat)
    (includeContext : Bool) (cb ca : Nat) : Except QErr String :=
  match listMessagesMsgs s f limit page with
  | .error e => .error e
  | .ok messages =>
    if includeContext && !messages.isEmpty then
      .ok (formatMessagesList s (expandWithContext s messages cb ca) true)
    else
      .ok (formatMessagesList s messages true)

/-! ### listChats / getChat SQL text (transcribed clause lists) -/

/-- The SQL clause list Go listChats assembles, whitespace normalised; note
the SELECT list names the messages table although the join is only appended
when includeLastMessage is set. -/
def listChatsQueryParts (hasQuery includeLastMessage : Bool) (sortBy : String) :
    List String :=
  let base := ["SELECT chats.jid, chats.name, chats.last_message_time, messages.content as last_message, messages.sender as last_sender, messages.is_from_me as last_is_from_me FROM chats"]
  let withJoin := if includeLastMessage then
    base ++ ["LEFT JOIN messages ON chats.jid = messages.chat_jid AND chats.last_message_time = messages.timestamp"]
    else base
  let withWhere := if hasQuery then
    withJoin ++ ["WHERE (LOWER(chats.name) LIKE LOWER(?) OR chats.jid LIKE ?)"]
    else withJoin
  let orderBy := if sortBy == "name" then "chats.name" else "chats.last_message_time DESC"
  withWhere ++ ["ORDER BY " ++ orderBy] ++ ["LIMIT ? OFFSET ?"]

/-- The SQL text Go listChats sends. -/
def listChatsQuery (hasQuery includeLastMessage : Bool) (sortBy : String) : String :=
  String.intercalate " " (listChatsQueryParts hasQuery includeLastMessage sortBy)

/-- The SQL text Go getChat sends; the SELECT list names the alias m although
the join introducing m is only appended when includeLastMessage is set. -/
def getChatQuery (includeLastMessage : Bool) : String :=
  "SELECT c.jid, c.name, c.last_message_time, m.content as last_message, m.sender as last_sender, m.is_from_me as last_is_from_me FROM chats c"
  ++ (if includeLastMessage then
        " LEFT JOIN messages m ON c.jid = m.chat_jid AND c.last_message_time = m.timestamp"
      else "")
  ++ " WHERE c.jid = ?"

/-! ### getContactChats -/

/-- One row of `chats c JOIN messages m ON c.jid = m.chat_jid` with the six
columns getContactChats selects; the join is NOT restricted to the last
message, so a chat contributes one row per message. -/
structure ContactChatRow where
  jid : String
  name : Option String
  last_message_time : Option String
  last_message : String
  last_sender : String
  last_is_from_me : Bool
deriving DecidableEq

/-- The joined relation of getContactChats. -/
def contactChatJoined (s : Store) : List ContactChatRow :=
  s.chats.flatMap fun c =>
    (s.messages.filter (fun m => m.chat_jid == c.jid)).map fun m =>
      { jid := c.jid, name := c.name, last_message_time := c.last_message_time,
        last_message := m.content, last_sender := m.sender,
        last_is_from_me := m.is_from_me }

/-- ORDER BY c.last_message_time DESC (SQL NULL, smallest, sinks to the
end). -/
def lmtDesc (a b : ContactChatRow) : Prop :=
  optStrLe b.last_message_time a.last_message_time = true

instance : DecidableRel lmtDesc := fun a b =>
  inferInstanceAs (Decidable (optStrLe b.last_message_time a.last_message_time = true))

instance : IsTotal ContactChatRow lmtDesc :=
  ⟨fun a b => by
    unfold lmtDesc
    exact optStrLe_total b.last_message_time a.last_message_time⟩

instance : IsTrans ContactChatRow lmtDesc :=
  ⟨fun _ _ _ h₁ h₂ => optStrLe_trans h₂ h₁⟩

/-- The DISTINCT ordered result set of getContactChats before LIMIT/OFFSET. -/
def getContactChatsAll (s : Store) (jid : String) : List ContactChatRow :=
  List.insertionSort lmtDesc
    ((contactChatJoined s).filter (fun r => r.last_sender == jid || r.jid == jid)).dedup

/-- The Go Chat struct as scanned by getContactChats; an absent or unparseable
last_message_time scans to none (the per-row lenient parse). -/
structure Chat where
  jid : String
  name : Option String
  last_message_time : Option String
  last_message : Option String
  last_sender : Option String
  last_is_from_me : Option Bool
deriving DecidableEq

/-- Scan of one getContactChats row into a Chat. -/
def rowToChat (r : ContactChatRow) : Chat :=
  { jid := r.jid, name := r.name,
    last_message_time := r.last_message_time.bind parseTime,
    last_message := some r.last_message, last_sender := some r.last_sender,
    last_is_from_me := some r.last_is_from_me }

/-- Go getContactChats: the DISTINCT joined rows where the contact is the
sender or the chat itself, ordered by last activity descending and
paginated. -/
def getContactChats (s : Store) (jid : String) (limit page : Nat) : List Chat :=
  (((getContactChatsAll s jid).drop (page * limit)).take limit).map rowToChat

/-! ### getLastInteraction -/

/-- The ordered candidate rows of getLastInteraction. -/
def lastInteractionRows (s : Store) (jid : String) : List JRow :=
  List.insertionSort tsDesc
    ((joinRows s).filter (fun r => r.sender == jid || r.chat_jid == jid))

/-- Go getLastInteraction: the single most recent row involving the contact;
no row yields none, and a timestamp parse failure of that row is fatal to the
call. -/
def getLastInteraction (s : Store) (jid : String) : Except QErr (Option String) :=
  match lastInteractionRows s jid with
  | [] => .ok none
  | r :: _ =>
    match rowToMessage r with
    | .error e => .error e
    | .ok m => .ok (some (formatMessage s m false))

/-- Ascending-timestamp Bool check on a message list, used to state the
chronology claims on concrete outputs. -/
def chronB : List Message → Bool
  | [] => true
  | [_] => true
  | m₁ :: m₂ :: rest => strLe m₁.timestamp m₂.timestamp && chronB (m₂ :: rest)

/-! ### Concrete stores used by witnesses and counterexamples -/

/-- Canonical test timestamp, 10:00. -/
def ts1 : String := "2024-01-01T10:00:00Z"

/-- Canonical test timestamp, 11:00. -/
def ts2 : String := "2024-01-01T11:00:00Z"

/-- Canonical test timestamp, 12:00. -/
def ts3 : String := "2024-01-01T12:00:00Z"

/-- A small healthy store: one direct chat with three messages. -/
def exStore : Store :=
  { chats := [⟨"111@s.whatsapp.net", some "Alice", some ts3⟩],
    messages :=
      [⟨ts1, "111@s.whatsapp.net", "hi", false, "111@s.whatsapp.net", "m1", none⟩,
       ⟨ts2, "111@s.whatsapp.net", "how are you", false, "111@s.whatsapp.net", "m2", none⟩,
       ⟨ts3, "111@s.whatsapp.net", "bye", false, "111@s.whatsapp.net", "m3", none⟩] }

/-- The empty filter of listMessages. -/
def noFilter : MsgFilter := ⟨none, none, none, none, none⟩

/-- A store holding one message whose stored timestamp is not parseable. -/
def badTsStore : Store :=
  { chats := [⟨"111@s.whatsapp.net", some "Alice", some ts1⟩],
    messages :=
      [⟨ts1, "111@s.whatsapp.net", "hi", false, "111@s.whatsapp.net", "m1", none⟩,
       ⟨"not-a-timestamp", "111@s.whatsapp.net", "late", false, "111@s.whatsapp.net", "m2", none⟩] }

/-- A store for the getContactChats claims: the contact 777 sent two messages
in a group chat, and is itself a chat with no messages. -/
def contactStore : Store :=
  { chats := [⟨"chat1@g.us", some "Team", some ts2⟩,
              ⟨"777@s.whatsapp.net", some "Bob", none⟩],
    messages :=
      [⟨ts1, "777@s.whatsapp.net", "a", false, "chat1@g.us", "g1", none⟩,
       ⟨ts2, "777@s.whatsapp.net", "b", false, "chat1@g.us", "g2", none⟩] }

/-! ### Scan lemmas: the successful row scan is a field copy -/

/-- The Message a successful scan produces from a row: the parse of a
canonical timestamp is the identity, everything else is copied. -/
def stripRow (r : JRow) : Message :=
  { timestamp := r.timestamp, sender := r.sender, content := r.content,
    is_from_me := r.is_from_me, chat_jid := r.chat_jid, id := r.id,
    chatName := r.chatName, media_type := r.media_type }

theorem parseTime_some {s t : String} (h : parseTime s = some t) : t = s := by
  unfold parseTime at h
  by_cases hc : isCanonTS s = true
  · rw [if_pos hc] at h; exact (Option.some.inj h).symm
  · rw [if_neg hc] at h; cases h

theorem rowToMessage_ok_eq {r : JRow} {m : Message} (h : rowToMessage r = .ok m) :
    m = stripRow r := by
  unfold rowToMessage at h
  cases hp : parseTime r.timestamp with
  | none => rw [hp] at h; cases h
  | some t =>
    rw [hp] at h
    have ht := parseTime_some hp
    cases h
    rw [stripRow, ht]

theorem rowToMessage_ok_of_parse {r : JRow} (h : isCanonTS r.timestamp = true) :
    rowToMessage r = .ok (stripRow r) := by
  unfold rowToMessage parseTime stripRow
  rw [if_pos h]

theorem rowsToMessages_ok_eq {l : List JRow} {ms : List Message}
    (h : rowsToMessages l = .ok ms) : ms = l.map stripRow := by
  induction l generalizing ms with
  | nil =>
    unfold rowsToMessages at h
    cases h
    rfl
  | cons r rs ih =>
    unfold rowsToMessages at h
    cases hr : rowToMessage r with
    | error e => rw [hr] at h; cases h
    | ok m =>
      rw [hr] at h
      cases hrs : rowsToMessages rs with
      | error e => rw [hrs] at h; cases h
      | ok ms' =>
        rw [hrs] at h
        cases h
        rw [List.map_cons, ← ih hrs, rowToMessage_ok_eq hr]

theorem rowsToMessages_ok_parses {l : List JRow} {ms : List Message}
    (h : rowsToMessages l = .ok ms) {r : JRow} (hr : r ∈ l) :
    parseTime r.timestamp = some r.timestamp := by
  induction l generalizing ms with
  | nil => cases hr
  | cons x xs ih =>
    unfold rowsToMessages at h
    cases hx : rowToMessage x with
    | error e => rw [hx] at h; cases h
    | ok m =>
      rw [hx] at h
      cases hxs : rowsToMessages xs with
      | error e => rw [hxs] at h; cases h
      | ok ms' =>
        rcases List.mem_cons.mp hr with rfl | hr'
        · unfold rowToMessage at hx
          cases hp : parseTime r.timestamp with
          | none => rw [hp] at hx; cases hx
          | some t => rw [parseTime_some hp]
        · exact ih hxs hr'

theorem rowsToMessages_error_of_bad {l : List JRow} {r : JRow} (hr : r ∈ l)
    (hp : parseTime r.timestamp = none) : ∃ e, rowsToMessages l = .error e := by
  induction l with
  | nil => cases hr
  | cons x xs ih =>
    rcases List.mem_cons.mp hr with rfl | hr'
    · refine ⟨.parseError r.timestamp, ?_⟩
      unfold rowsToMessages rowToMessage
      rw [hp]
    · cases hx : rowToMessage x with
      | error e =>
        refine ⟨e, ?_⟩
        unfold rowsToMessages
        rw [hx]
      | ok m =>
        rcases ih hr' with ⟨e, he⟩
        refine ⟨e, ?_⟩
        unfold rowsToMessages
        rw [hx, he]

/-! ### Join lemmas -/

theorem mem_joinRows {s : Store} {r : JRow} (h : r ∈ joinRows s) :
    ∃ m ∈ s.messages, r.id = m.id ∧ r.timestamp = m.timestamp := by
  unfold joinRows at h
  rcases List.mem_filterMap.mp h with ⟨m, hm, hfm⟩
  rcases Option.map_eq_some'.mp hfm with ⟨c, _, hc⟩
  exact ⟨m, hm, by rw [← hc], by rw [← hc]⟩

theorem exists_joinRow {s : Store} {m : MsgRow} (hm : m ∈ s.messages)
    (hc : ∃ c ∈ s.chats, c.jid = m.chat_jid) :
    ∃ r ∈ joinRows s, r.id = m.id ∧ r.timestamp = m.timestamp := by
  rcases hc with ⟨c, hcm, hje⟩
  have hs : (s.chats.find? (fun c' => c'.jid == m.chat_jid)).isSome = true := by
    rw [List.find?_isSome]
    exact ⟨c, hcm, by simp [hje]⟩
  rcases Option.isSome_iff_exists.mp hs with ⟨c', hc'⟩
  refine ⟨{ timestamp := m.timestamp, sender := m.sender, chatName := c'.name,
            content := m.content, is_from_me := m.is_from_me, chat_jid := c'.jid,
            id := m.id, media_type := m.media_type }, ?_, rfl, rfl⟩
  exact List.mem_filterMap.mpr ⟨m, hm, by rw [hc']; rfl⟩

/-- Two joined rows sharing an id coincide when ids are pairwise distinct. -/
theorem eq_of_id_unique {l : List JRow}
    (h : l.Pairwise (fun x y => x.id ≠ y.id)) {r r' : JRow}
    (hr : r ∈ l) (hr' : r' ∈ l) (hid : r.id = r'.id) : r = r' := by
  induction l with
  | nil => cases hr
  | cons x xs ih =>
    rcases List.pairwise_cons.mp h with ⟨hx, hxs⟩
    rcases List.mem_cons.mp hr with hrx | hrxs
    · rcases List.mem_cons.mp hr' with hrx' | hrxs'
      · rw [hrx, hrx']
      · subst hrx
        exact absurd hid (hx r' hrxs')
    · rcases List.mem_cons.mp hr' with hrx' | hrxs'
      · subst hrx'
        exact absurd hid.symm (hx r hrxs)
      · exact ih hxs hrxs hrxs'

/-! ### Error-shape lemmas -/

theorem rowToMessage_error_shape {r : JRow} {e : QErr}
    (h : rowToMessage r = .error e) : e = .parseError r.timestamp := by
  unfold rowToMessage at h
  cases hp : parseTime r.timestamp with
  | none =>
    rw [hp] at h
    exact (Except.error.inj h).symm
  | some t => rw [hp] at h; cases h

theorem rowsToMessages_error_shape {l : List JRow} {e : QErr}
    (h : rowsToMessages l = .error e) : ∃ ts, e = .parseError ts := by
  induction l generalizing e with
  | nil => cases h
  | cons r rs ih =>
    unfold rowsToMessages at h
    cases hr : rowToMessage r with
    | error e' =>
      rw [hr] at h
      injection h with h'
      exact ⟨r.timestamp, h'.symm.trans (rowToMessage_error_shape hr)⟩
    | ok m =>
      rw [hr] at h
      cases hrs : rowsToMessages rs with
      | error e' =>
        rw [hrs] at h
        injection h with h'
        exact h' ▸ ih hrs
      | ok ms => rw [hrs] at h; cases h

/-- C1: the claim expects getChat and listChats to answer for both values of
includeLastMessage, but with the flag unset both operations assemble SQL whose
SELECT list references the messages table (alias m for getChat) while no JOIN
clause brings that table into scope, so SQLite rejects the query with a
no-such-column error and the call always fails; with the flag set the LEFT
JOIN is present. -/
theorem claim1_include_last_message_query_bug (hasQuery : Bool) (sortBy : String) :
    (containsSub (listChatsQuery hasQuery false sortBy) "messages.content" = true ∧
     containsSub (listChatsQuery hasQuery false sortBy) "JOIN" = false) ∧
    (containsSub (getChatQuery false) "m.content" = true ∧
     containsSub (getChatQuery false) "JOIN" = false) ∧
    containsSub (listChatsQuery hasQuery true sortBy) "LEFT JOIN messages" = true ∧
    containsSub (getChatQuery true) "LEFT JOIN messages m" = true := by
  rcases Bool.eq_false_or_eq_true (sortBy == "name") with h | h <;>
    cases hasQuery <;>
      simp only [listChatsQuery, listChatsQueryParts, getChatQuery, h] <;> decide

/-- C3 counterexample: a store holding a row with an unparseable timestamp
makes listMessages abort the call with an error; the row is not skipped. -/
theorem claim3_parse_failure_counterexample :
    listMessages badTsStore noFilter 10 0 false 1 1 =
      .error (.parseError "not-a-timestamp") := rfl

/-- C3 amended: a timestamp parse failure in a scanned listMessages row is
fatal to that call, exactly as in the most-recent-message lookup
getLastInteraction; per-row skipping applies only to the chat-level
last-activity column, not to message listing. -/
theorem claim3_parse_failure_amended (s : Store) (f : MsgFilter) (L P : Nat)
    (jid : String) :
    (∀ rws r, listMessagesRows s f L P = .ok rws → r ∈ rws →
      parseTime r.timestamp = none →
      ∃ e, listMessages s f L P false 1 1 = .error e) ∧
    (∀ r rest, lastInteractionRows s jid = r :: rest →
      parseTime r.timestamp = none →
      ∃ e, getLastInteraction s jid = .error e) := by
  constructor
  · intro rws r hrows hr hp
    rcases rowsToMessages_error_of_bad hr hp with ⟨e, he⟩
    refine ⟨e, ?_⟩
    simp only [listMessages, listMessagesMsgs, hrows, he]
  · intro r rest hrows hp
    refine ⟨.parseError r.timestamp, ?_⟩
    simp only [getLastInteraction, rowToMessage, hrows, hp]

/-- The joined row of the unparseable message of badTsStore. -/
def badRow : JRow :=
  ⟨"not-a-timestamp", "111@s.whatsapp.net", some "Alice", "late", false,
   "111@s.whatsapp.net", "m2", none⟩

/-- The joined row of the parseable message of badTsStore. -/
def goodRow : JRow :=
  ⟨ts1, "111@s.whatsapp.net", some "Alice", "hi", false,
   "111@s.whatsapp.net", "m1", none⟩

/-- Witness for the C3 amended theorem at a concrete store. -/
theorem claim3_parse_failure_amended_witness :
    (∃ e, listMessages badTsStore noFilter 10 0 false 1 1 = .error e) ∧
    (∃ e, getLastInteraction badTsStore "111@s.whatsapp.net" = .error e) := by
  have h := claim3_parse_failure_amended badTsStore noFilter 10 0
    "111@s.whatsapp.net"
  exact ⟨h.1 [badRow, goodRow] badRow rfl (by decide) rfl,
         h.2 badRow [goodRow] rfl rfl⟩

/-- C6: on a healthy store (every message references an existing chat) the
context lookup fails with the message-not-found error exactly when no stored
message carries the requested id; in particular an unknown id never yields a
silent empty result, and a resolvable id never yields that error. -/
theorem claim6_not_found_iff (s : Store) (messageID : String) (b a : Nat)
    (hh : ∀ m ∈ s.messages, ∃ c ∈ s.chats, c.jid = m.chat_jid) :
    getMessageContext s messageID b a = .error (.messageNotFound messageID) ↔
      ∀ m ∈ s.messages, m.id ≠ messageID := by
  cases hf : (joinRows s).find? (fun r => r.id == messageID) with
  | none =>
    have hnone : ∀ m ∈ s.messages, m.id ≠ messageID := by
      intro m hm he
      rcases exists_joinRow hm (hh m hm) with ⟨r, hrj, hrid, _⟩
      have hne := List.find?_eq_none.mp hf r hrj
      simp [hrid, he] at hne
    constructor
    · intro _; exact hnone
    · intro _
      unfold getMessageContext getMessageContextRows
      rw [hf]
  | some tr =>
    have htr : ¬ ∀ m ∈ s.messages, m.id ≠ messageID := by
      intro hall
      have hmem := List.mem_of_find?_eq_some hf
      have hid : tr.id = messageID := by simpa using List.find?_some hf
      rcases mem_joinRows hmem with ⟨m, hm, hmid, _⟩
      exact hall m hm (by rw [← hmid, hid])
    constructor
    · intro hctx
      exfalso
      unfold getMessageContext getMessageContextRows at hctx
      simp only [hf] at hctx
      cases h1 : rowToMessage tr with
      | error e =>
        simp only [h1] at hctx
        rw [rowToMessage_error_shape h1] at hctx
        cases hctx
      | ok target =>
        simp only [h1] at hctx
        cases h2 : rowsToMessages ((List.insertionSort tsDesc ((joinRows s).filter
            (fun r => r.chat_jid == tr.chat_jid &&
              strLt r.timestamp tr.timestamp))).take b) with
        | error e =>
          simp only [h2] at hctx
          rcases rowsToMessages_error_shape h2 with ⟨ts, hts⟩
          rw [hts] at hctx
          cases hctx
        | ok bs =>
          simp only [h2] at hctx
          cases h3 : rowsToMessages ((List.insertionSort tsAsc ((joinRows s).filter
              (fun r => r.chat_jid == tr.chat_jid &&
                strLt tr.timestamp r.timestamp))).take a) with
          | error e =>
            simp only [h3] at hctx
            rcases rowsToMessages_error_shape h3 with ⟨ts, hts⟩
            rw [hts] at hctx
            cases hctx
          | ok afters =>
            simp only [h3] at hctx
            cases hctx
    · intro hall
      exact absurd hall htr

/-- Witness for C6 at a concrete store and an id that resolves to nothing. -/
theorem claim6_not_found_iff_witness :
    getMessageContext exStore "zzz" 2 2 = .error (.messageNotFound "zzz") :=
  (claim6_not_found_iff exStore "zzz" 2 2 (by decide)).mpr (by decide)

/-- C9: getSenderName is a total function, and whenever no chat row matches
with a usable (present and non-empty) name, neither exactly by jid nor by the
case-insensitive containment of the local part, the input comes back
unchanged. -/
theorem claim9_resolve_unchanged (s : Store) (senderJID : String)
    (h1 : ∀ c ∈ s.chats, c.jid = senderJID →
      c.name = none ∨ c.name = some "")
    (h2 : ∀ c ∈ s.chats, likeContains c.jid (localPart senderJID) = true →
      c.name = none ∨ c.name = some "") :
    getSenderName s senderJID = senderJID := by
  have hfb : getSenderNameFallback s senderJID = senderJID := by
    unfold getSenderNameFallback
    cases hf : s.chats.find? (fun c => likeContains c.jid (localPart senderJID)) with
    | none => rfl
    | some c =>
      have hc := List.mem_of_find?_eq_some hf
      have hp : likeContains c.jid (localPart senderJID) = true := by
        simpa using List.find?_some hf
      show (match c.name with
        | some n => if n = "" then senderJID else n
        | none => senderJID) = senderJID
      rcases h2 c hc hp with hn | hn <;> rw [hn] <;> simp
  unfold getSenderName
  cases hf : s.chats.find? (fun c => c.jid == senderJID) with
  | none => exact hfb
  | some c =>
    have hc := List.mem_of_find?_eq_some hf
    have hp : c.jid = senderJID := by simpa using List.find?_some hf
    show (match c.name with
      | some n => if n = "" then getSenderNameFallback s senderJID else n
      | none => getSenderNameFallback s senderJID) = senderJID
    rcases h1 c hc hp with hn | hn <;> rw [hn]
    · exact hfb
    · simp [hfb]

/-- Witness for C9 at a concrete store and an unmatched sender. -/
theorem claim9_resolve_unchanged_witness :
    getSenderName exStore "999@c.us" = "999@c.us" :=
  claim9_resolve_unchanged exStore "999@c.us" (by decide) (by decide)

/-- C4: a successful listMessages call returns at most limit messages, and
page P of the descending result equals the corresponding slice of the page-0
result re-queried with limit L * (P + 1). -/
theorem claim4_pagination (s : Store) (f : MsgFilter) (L P : Nat)
    {msgs : List Message} (h : listMessagesMsgs s f L P = .ok msgs) :
    msgs.length ≤ L ∧
    ∀ msgs0, listMessagesMsgs s f (L * (P + 1)) 0 = .ok msgs0 →
      ∀ i, i < msgs.length → msgs[i]? = msgs0[i + L * P]? := by
  unfold listMessagesMsgs listMessagesRows at h
  cases hA : boundParam "after" f.after with
  | error e => simp only [hA] at h; exact Except.noConfusion h
  | ok afterT =>
    cases hB : boundParam "before" f.before with
    | error e => simp only [hA, hB] at h; exact Except.noConfusion h
    | ok beforeT =>
      simp only [hA, hB] at h
      have e1 : msgs =
          (((sortedMatches s f afterT beforeT).drop (P * L)).take L).map stripRow :=
        rowsToMessages_ok_eq h
      have hlen : msgs.length ≤ L := by
        rw [e1, List.length_map, List.length_take]
        omega
      refine ⟨hlen, ?_⟩
      intro msgs0 h0 i hi
      unfold listMessagesMsgs listMessagesRows at h0
      simp only [hA, hB, Nat.zero_mul, List.drop_zero] at h0
      have e0 : msgs0 =
          ((sortedMatches s f afterT beforeT).take (L * (P + 1))).map stripRow :=
        rowsToMessages_ok_eq h0
      have hiL : i < L := lt_of_lt_of_le hi hlen
      have hidx : i + L * P < L * (P + 1) := by
        have hring : L * (P + 1) = L * P + L := by ring
        omega
      rw [e1, e0, List.getElem?_map, List.getElem?_map, List.getElem?_take,
        if_pos hiL, List.getElem?_drop, List.getElem?_take, if_pos hidx]
      have hix : P * L + i = i + L * P := by ring
      rw [hix]

/-- Scanned Message value of the first message of exStore. -/
def msgM1 : Message :=
  ⟨ts1, "111@s.whatsapp.net", "hi", false, "111@s.whatsapp.net", "m1",
   some "Alice", none⟩

/-- Scanned Message value of the second message of exStore. -/
def msgM2 : Message :=
  ⟨ts2, "111@s.whatsapp.net", "how are you", false, "111@s.whatsapp.net", "m2",
   some "Alice", none⟩

/-- Scanned Message value of the third message of exStore. -/
def msgM3 : Message :=
  ⟨ts3, "111@s.whatsapp.net", "bye", false, "111@s.whatsapp.net", "m3",
   some "Alice", none⟩

/-- Witness for C4 at exStore with limit 1, page 1. -/
theorem claim4_pagination_witness :
    listMessagesMsgs exStore noFilter 1 1 = .ok [msgM2] ∧
    [msgM2].length ≤ 1 ∧ [msgM2][0]? = [msgM3, msgM2][0 + 1 * 1]? := by
  have h := @claim4_pagination exStore noFilter 1 1 [msgM2] rfl
  exact ⟨rfl, h.1, h.2 [msgM3, msgM2] rfl 0 (by decide)⟩

/-- C2 counterexample: on a three-message chat the context of the latest
message with a before-window of two returns before in newest-first order, so
the concatenation before, target, after is not chronologically ascending. -/
theorem claim2_window_order_counterexample :
    (getMessageContext exStore "m3" 2 0).map
      (fun ctx => chronB (ctx.before ++ ctx.message :: ctx.after)) =
      .ok false := rfl

/-- C2 amended: a successful context call returns at most the requested
counts; before holds strictly earlier same-chat messages NEWEST FIRST (the
code never reverses the descending query), after holds strictly later ones
ascending, so the chronologically ascending concatenation is
before.reverse, target, after; and every strictly earlier same-chat row is
either in the before window or no later than everything in it. -/
theorem claim2_window_amended (s : Store) (messageID : String) (b a : Nat)
    (ctx : MessageContext) (h : getMessageContext s messageID b a = .ok ctx) :
    ctx.before.length ≤ b ∧ ctx.after.length ≤ a ∧
    List.Pairwise (fun m₁ m₂ : Message => strLe m₁.timestamp m₂.timestamp = true)
      (ctx.before.reverse ++ ctx.message :: ctx.after) ∧
    (∀ m ∈ ctx.before, m.chat_jid = ctx.message.chat_jid ∧
      strLt m.timestamp ctx.message.timestamp = true) ∧
    (∀ m ∈ ctx.after, m.chat_jid = ctx.message.chat_jid ∧
      strLt ctx.message.timestamp m.timestamp = true) ∧
    (∀ r ∈ joinRows s, ∀ tr br ar,
      getMessageContextRows s messageID b a = .ok (tr, br, ar) →
      r.chat_jid = tr.chat_jid → strLt r.timestamp tr.timestamp = true →
      r ∈ br ∨ ∀ x ∈ br, strLe r.timestamp x.timestamp = true) := by
  unfold getMessageContext getMessageContextRows at h
  cases hf : (joinRows s).find? (fun r => r.id == messageID) with
  | none => simp only [hf] at h; exact Except.noConfusion h
  | some tr =>
    simp only [hf] at h
    cases h1 : rowToMessage tr with
    | error e => simp only [h1] at h; exact Except.noConfusion h
    | ok target =>
      simp only [h1] at h
      cases h2 : rowsToMessages ((List.insertionSort tsDesc ((joinRows s).filter
          (fun r => r.chat_jid == tr.chat_jid &&
            strLt r.timestamp tr.timestamp))).take b) with
      | error e => simp only [h2] at h; exact Except.noConfusion h
      | ok bs =>
        simp only [h2] at h
        cases h3 : rowsToMessages ((List.insertionSort tsAsc ((joinRows s).filter
            (fun r => r.chat_jid == tr.chat_jid &&
              strLt tr.timestamp r.timestamp))).take a) with
        | error e => simp only [h3] at h; exact Except.noConfusion h
        | ok afters =>
          simp only [h3, Except.ok.injEq] at h
          subst h
          have htarget : target = stripRow tr := rowToMessage_ok_eq h1
          have hbs : bs = ((List.insertionSort tsDesc ((joinRows s).filter
              (fun r => r.chat_jid == tr.chat_jid &&
                strLt r.timestamp tr.timestamp))).take b).map stripRow :=
            rowsToMessages_ok_eq h2
          have has : afters = ((List.insertionSort tsAsc ((joinRows s).filter
              (fun r => r.chat_jid == tr.chat_jid &&
                strLt tr.timestamp r.timestamp))).take a).map stripRow :=
            rowsToMessages_ok_eq h3
          have hbmem : ∀ rb ∈ (List.insertionSort tsDesc ((joinRows s).filter
              (fun r => r.chat_jid == tr.chat_jid &&
                strLt r.timestamp tr.timestamp))).take b,
              rb.chat_jid = tr.chat_jid ∧ strLt rb.timestamp tr.timestamp = true := by
            intro rb hrb
            have hm : rb ∈ (joinRows s).filter
                (fun r => r.chat_jid == tr.chat_jid &&
                  strLt r.timestamp tr.timestamp) :=
              ((List.perm_insertionSort tsDesc _).mem_iff).mp
                ((List.take_sublist _ _).subset hrb)
            have hp := List.of_mem_filter hm
            simp only [Bool.and_eq_true, beq_iff_eq] at hp
            exact hp
          have hamem : ∀ ra ∈ (List.insertionSort tsAsc ((joinRows s).filter
              (fun r => r.chat_jid == tr.chat_jid &&
                strLt tr.timestamp r.timestamp))).take a,
              ra.chat_jid = tr.chat_jid ∧ strLt tr.timestamp ra.timestamp = true := by
            intro ra hra
            have hm : ra ∈ (joinRows s).filter
                (fun r => r.chat_jid == tr.chat_jid &&
                  strLt tr.timestamp r.timestamp) :=
              ((List.perm_insertionSort tsAsc _).mem_iff).mp
                ((List.take_sublist _ _).subset hra)
            have hp := List.of_mem_filter hm
            simp only [Bool.and_eq_true, beq_iff_eq] at hp
            exact hp
          have hbefore : ∀ m ∈ bs, m.chat_jid = target.chat_jid ∧
              strLt m.timestamp target.timestamp = true := by
            intro m hm
            rw [hbs] at hm
            rcases List.mem_map.mp hm with ⟨rb, hrb, rfl⟩
            rcases hbmem rb hrb with ⟨hc, hlt⟩
            rw [htarget]
            exact ⟨hc, hlt⟩
          have hafter : ∀ m ∈ afters, m.chat_jid = target.chat_jid ∧
              strLt target.timestamp m.timestamp = true := by
            intro m hm
            rw [has] at hm
            rcases List.mem_map.mp hm with ⟨ra, hra, rfl⟩
            rcases hamem ra hra with ⟨hc, hlt⟩
            rw [htarget]
            exact ⟨hc, hlt⟩
          refine ⟨?_, ?_, ?_, hbefore, hafter, ?_⟩
          · rw [hbs, List.length_map, List.length_take]
            omega
          · rw [has, List.length_map, List.length_take]
            omega
          · -- the ascending concatenation
            have hbsPW : List.Pairwise
                (fun m₁ m₂ : Message => strLe m₂.timestamp m₁.timestamp = true) bs := by
              rw [hbs]
              refine List.pairwise_map.mpr ?_
              exact List.Pairwise.sublist (List.take_sublist _ _)
                (List.sorted_insertionSort tsDesc _)
            have hasPW : List.Pairwise
                (fun m₁ m₂ : Message => strLe m₁.timestamp m₂.timestamp = true) afters := by
              rw [has]
              refine List.pairwise_map.mpr ?_
              exact List.Pairwise.sublist (List.take_sublist _ _)
                (List.sorted_insertionSort tsAsc _)
            refine List.pairwise_append.mpr ⟨?_, ?_, ?_⟩
            · exact List.pairwise_reverse.mpr hbsPW
            · refine List.pairwise_cons.mpr ⟨?_, hasPW⟩
              intro y hy
              exact strLe_of_strLt (hafter y hy).2
            · intro x hx y hy
              have hxb : x ∈ bs := List.mem_reverse.mp hx
              have hxlt := (hbefore x hxb).2
              rcases List.mem_cons.mp hy with rfl | hy'
              · exact strLe_of_strLt hxlt
              · have hylt := (hafter y hy').2
                exact strLe_of_strLt
                  (strLt_trans_right (strLe_of_strLt hxlt) hylt)
          · -- maximality of the before window
            intro r hrj tr' br' ar' hrows hchat hlt
            have h4 := hrows
            unfold getMessageContextRows at h4
            simp only [hf, Except.ok.injEq, Prod.mk.injEq] at h4
            obtain ⟨htr', hbr', har'⟩ := h4
            subst htr'
            subst hbr'
            have hrf : r ∈ (joinRows s).filter
                (fun q => q.chat_jid == tr.chat_jid &&
                  strLt q.timestamp tr.timestamp) := by
              refine List.mem_filter.mpr ⟨hrj, ?_⟩
              simp [hchat, hlt]
            have hrs : r ∈ List.insertionSort tsDesc ((joinRows s).filter
                (fun q => q.chat_jid == tr.chat_jid &&
                  strLt q.timestamp tr.timestamp)) :=
              ((List.perm_insertionSort tsDesc _).mem_iff).mpr hrf
            by_cases hmem : r ∈ (List.insertionSort tsDesc ((joinRows s).filter
                (fun q => q.chat_jid == tr.chat_jid &&
                  strLt q.timestamp tr.timestamp))).take b
            · exact Or.inl hmem
            · refine Or.inr ?_
              intro x hx
              have hsplit := List.take_append_drop b
                (List.insertionSort tsDesc ((joinRows s).filter
                  (fun q => q.chat_jid == tr.chat_jid &&
                    strLt q.timestamp tr.timestamp)))
              have hPW := List.sorted_insertionSort tsDesc
                ((joinRows s).filter
                  (fun q => q.chat_jid == tr.chat_jid &&
                    strLt q.timestamp tr.timestamp))
              rw [← hsplit] at hPW
              have hcross := (List.pairwise_append.mp hPW).2.2
              have hrd : r ∈ (List.insertionSort tsDesc ((joinRows s).filter
                  (fun q => q.chat_jid == tr.chat_jid &&
                    strLt q.timestamp tr.timestamp))).drop b := by
                rw [← hsplit] at hrs
                rcases List.mem_append.mp hrs with h' | h'
                · exact absurd h' hmem
                · exact h'
              exact hcross x hx r hrd

/-- The context of message m2 of exStore with windows of five. -/
def ctxM2 : MessageContext := ⟨msgM2, [msgM1], [msgM3]⟩

/-- Witness for C2 amended at exStore: windows shorter than requested are
returned without error and the stated ordering facts hold. -/
theorem claim2_window_amended_witness :
    getMessageContext exStore "m2" 5 5 = .ok ctxM2 ∧
    ctxM2.before.length ≤ 5 ∧ ctxM2.after.length ≤ 5 ∧
    List.Pairwise (fun m₁ m₂ : Message => strLe m₁.timestamp m₂.timestamp = true)
      (ctxM2.before.reverse ++ ctxM2.message :: ctxM2.after) := by
  have h := claim2_window_amended exStore "m2" 5 5 ctxM2 rfl
  exact ⟨rfl, h.1, h.2.1, h.2.2.1⟩

/-- C7 counterexample: contactStore holds the contact's own chat (which has
no messages) and a group chat with two messages from the contact; the result
lists the group chat twice, one entry per joined message projection, and the
contact's own chat not at all. -/
theorem claim7_contact_chats_counterexample :
    (getContactChats contactStore "777@s.whatsapp.net" 10 0).map Chat.jid =
      ["chat1@g.us", "chat1@g.us"] := rfl

/-- C7 amended: getContactChats returns one entry per distinct joined
(chat, message) projection: every chat having at least one message in which
the contact is the sender or which is the contact itself appears at least
once, ordered by last activity descending and paginated; the same chat may
appear several times under different message projections, and a chat with no
messages never appears (the join is inner and unrestricted). -/
theorem claim7_contact_chats_amended (s : Store) (jid : String) (limit page : Nat) :
    (∀ c ∈ s.chats,
      (∃ m ∈ s.messages, m.chat_jid = c.jid ∧ (m.sender = jid ∨ c.jid = jid)) →
      ∃ r ∈ getContactChatsAll s jid, r.jid = c.jid) ∧
    List.Pairwise lmtDesc (getContactChatsAll s jid) ∧
    getContactChats s jid limit page =
      (((getContactChatsAll s jid).drop (page * limit)).take limit).map rowToChat ∧
    (getContactChats s jid limit page).length ≤ limit := by
  refine ⟨?_, ?_, rfl, ?_⟩
  · intro c hc hex
    rcases hex with ⟨m, hm, hmc, hsel⟩
    refine ⟨⟨c.jid, c.name, c.last_message_time, m.content, m.sender,
      m.is_from_me⟩, ?_, rfl⟩
    unfold getContactChatsAll
    rw [List.mem_insertionSort, List.mem_dedup]
    refine List.mem_filter.mpr ⟨?_, ?_⟩
    · unfold contactChatJoined
      refine List.mem_flatMap.mpr ⟨c, hc, ?_⟩
      refine List.mem_map.mpr ⟨m, ?_, rfl⟩
      exact List.mem_filter.mpr ⟨hm, by simp [hmc]⟩
    · rcases hsel with h | h <;> simp [h]
  · exact List.sorted_insertionSort lmtDesc _
  · unfold getContactChats
    rw [List.length_map, List.length_take]
    omega

/-- Witness for C7 amended at contactStore. -/
theorem claim7_contact_chats_amended_witness :
    (∃ r ∈ getContactChatsAll contactStore "777@s.whatsapp.net",
      r.jid = "chat1@g.us") ∧
    (getContactChats contactStore "777@s.whatsapp.net" 10 0).length ≤ 10 := by
  have h := claim7_contact_chats_amended contactStore "777@s.whatsapp.net" 10 0
  refine ⟨h.1 ⟨"chat1@g.us", some "Team", some ts2⟩ (by decide) ?_, h.2.2.2⟩
  exact ⟨⟨ts1, "777@s.whatsapp.net", "a", false, "chat1@g.us", "g1", none⟩,
    by decide, rfl, Or.inl rfl⟩

/-- C10: searchContacts returns at most 50 contacts; every returned contact
is a non-group row (its jid does not end with the group suffix, checked
case-insensitively as SQLite LIKE does) whose name or jid case-insensitively
contains the query; and the output is ordered by name (SQL NULL names first)
then jid. -/
theorem claim10_search_contacts (s : Store) (query : String) :
    (searchContacts s query).length ≤ 50 ∧
    (∀ c ∈ searchContacts s query,
      likeEndsWith c.jid "@g.us" = false ∧
      ((∃ n, c.name = some n ∧ likeContains n query = true) ∨
        likeContains c.jid query = true)) ∧
    List.Pairwise
      (fun c₁ c₂ : Contact => contactOrd (c₁.jid, c₁.name) (c₂.jid, c₂.name))
      (searchContacts s query) := by
  refine ⟨?_, ?_, ?_⟩
  · unfold searchContacts
    rw [List.length_map, List.length_take]
    omega
  · intro c hc
    unfold searchContacts at hc
    rcases List.mem_map.mp hc with ⟨p, hp, rfl⟩
    have hps : p ∈ List.insertionSort contactOrd
        (((s.chats.filter (searchContactsQueryPred query)).map
          (fun c => (c.jid, c.name))).dedup) :=
      (List.take_sublist _ _).subset hp
    rw [List.mem_insertionSort, List.mem_dedup] at hps
    rcases List.mem_map.mp hps with ⟨cr, hcr, rfl⟩
    have hpred := List.of_mem_filter hcr
    unfold searchContactsQueryPred at hpred
    simp only [Bool.and_eq_true, Bool.or_eq_true, Bool.not_eq_true'] at hpred
    refine ⟨hpred.2, ?_⟩
    rcases hpred.1 with h | h
    · cases hn : cr.name with
      | none => rw [hn] at h; cases h
      | some n => rw [hn] at h; exact Or.inl ⟨n, rfl, h⟩
    · exact Or.inr h
  · unfold searchContacts
    refine List.pairwise_map.mpr ?_
    refine List.Pairwise.sublist (List.take_sublist _ _) ?_
    exact List.sorted_insertionSort contactOrd _

/-- Witness for C10 at exStore. -/
theorem claim10_search_contacts_witness :
    (searchContacts exStore "ali").length ≤ 50 ∧
    ∀ c ∈ searchContacts exStore "ali", likeEndsWith c.jid "@g.us" = false := by
  have h := claim10_search_contacts exStore "ali"
  exact ⟨h.1, fun c hc => (h.2.1 c hc).1⟩

/-- Every matched message of a successful listMessages call is the scan of a
joined row of the store. -/
theorem listMessagesMsgs_ok_mem {s : Store} {f : MsgFilter} {L P : Nat}
    {msgs : List Message} (h : listMessagesMsgs s f L P = .ok msgs) :
    ∀ m ∈ msgs, ∃ r ∈ joinRows s, m = stripRow r := by
  unfold listMessagesMsgs listMessagesRows at h
  cases hA : boundParam "after" f.after with
  | error e => simp only [hA] at h; exact Except.noConfusion h
  | ok afterT =>
    cases hB : boundParam "before" f.before with
    | error e => simp only [hA, hB] at h; exact Except.noConfusion h
    | ok beforeT =>
      simp only [hA, hB] at h
      intro m hm
      rw [rowsToMessages_ok_eq h] at hm
      rcases List.mem_map.mp hm with ⟨r, hr, rfl⟩
      refine ⟨r, ?_, rfl⟩
      have h1 : r ∈ sortedMatches s f afterT beforeT :=
        (List.drop_sublist _ _).subset ((List.take_sublist _ _).subset hr)
      have h2 : r ∈ (joinRows s).filter (msgPred f afterT beforeT) :=
        ((List.perm_insertionSort tsDesc _).mem_iff).mp h1
      exact (List.filter_sublist _).subset h2

/-- A list of naturals holding the value one at two distinct positions sums
to at least two. -/
theorem two_le_sum_of_two {l : List Nat} {i j : Nat} (hij : i < j)
    (hj : j < l.length) (hi1 : 1 ≤ l.get ⟨i, lt_trans hij hj⟩)
    (hj1 : 1 ≤ l.get ⟨j, hj⟩) : 2 ≤ l.sum := by
  induction l generalizing i j with
  | nil => cases hj
  | cons x xs ih =>
    cases i with
    | zero =>
      cases j with
      | zero => exact absurd hij (lt_irrefl 0)
      | succ j' =>
        have hj' : j' < xs.length := Nat.lt_of_succ_lt_succ hj
        have h1x : 1 ≤ x := hi1
        have hgs : xs.get ⟨j', hj'⟩ ≤ xs.sum :=
          List.single_le_sum (fun y _ => Nat.zero_le y) _ (List.get_mem _ _ _)
        have h1j : 1 ≤ xs.get ⟨j', hj'⟩ := hj1
        simp only [List.sum_cons]
        omega
    | succ i' =>
      cases j with
      | zero => exact absurd hij (Nat.not_lt_zero _)
      | succ j' =>
        have hij' : i' < j' := Nat.lt_of_succ_lt_succ hij
        have hj' : j' < xs.length := Nat.lt_of_succ_lt_succ hj
        have hrec := ih hij' hj' hi1 hj1
        simp only [List.sum_cons]
        omega

/-- C5 amended: the context expansion concatenates the windows of the matched
messages in matched order; when joined-row ids are globally distinct each
successful window is centred on its own matched message; no de-duplication is
performed, so a message lying in the windows of two distinct matched
positions is counted at least twice in the output. Each window is emitted
with its before part newest-first (see the C2 results), so a window is
internally chronological only when its before part has at most one element. -/
theorem claim5_expansion_amended (s : Store) (f : MsgFilter) (L P cb ca : Nat)
    {msgs : List Message} (hok : listMessagesMsgs s f L P = .ok msgs)
    (huniq : (joinRows s).Pairwise (fun x y => x.id ≠ y.id)) :
    expandWithContext s msgs cb ca =
      msgs.flatMap (fun m => contextWindow s m.id cb ca) ∧
    (∀ m ∈ msgs, ∀ ctx, getMessageContext s m.id cb ca = .ok ctx →
      ctx.message = m) ∧
    (∀ (x : Message) (i j : Nat) (hi : i < msgs.length) (hj : j < msgs.length),
      i ≠ j → x ∈ contextWindow s (msgs.get ⟨i, hi⟩).id cb ca →
      x ∈ contextWindow s (msgs.get ⟨j, hj⟩).id cb ca →
      2 ≤ (expandWithContext s msgs cb ca).count x) := by
  have hcenter : ∀ m ∈ msgs, ∀ ctx, getMessageContext s m.id cb ca = .ok ctx →
      ctx.message = m := by
    intro m hm ctx hctx
    rcases listMessagesMsgs_ok_mem hok m hm with ⟨r, hrj, rfl⟩
    unfold getMessageContext getMessageContextRows at hctx
    cases hf : (joinRows s).find? (fun q => q.id == (stripRow r).id) with
    | none => simp only [hf] at hctx; exact Except.noConfusion hctx
    | some tr =>
      simp only [hf] at hctx
      have htr_mem := List.mem_of_find?_eq_some hf
      have htr_id : tr.id = (stripRow r).id := by
        simpa using List.find?_some hf
      have htr : tr = r := eq_of_id_unique huniq htr_mem hrj htr_id
      subst htr
      cases h1 : rowToMessage tr with
      | error e => simp only [h1] at hctx; exact Except.noConfusion hctx
      | ok target =>
        simp only [h1] at hctx
        cases h2 : rowsToMessages ((List.insertionSort tsDesc ((joinRows s).filter
            (fun q => q.chat_jid == tr.chat_jid &&
              strLt q.timestamp tr.timestamp))).take cb) with
        | error e => simp only [h2] at hctx; exact Except.noConfusion hctx
        | ok bs =>
          simp only [h2] at hctx
          cases h3 : rowsToMessages ((List.insertionSort tsAsc ((joinRows s).filter
              (fun q => q.chat_jid == tr.chat_jid &&
                strLt tr.timestamp q.timestamp))).take ca) with
          | error e => simp only [h3] at hctx; exact Except.noConfusion hctx
          | ok afters =>
            simp only [h3, Except.ok.injEq] at hctx
            subst hctx
            exact (rowToMessage_ok_eq h1).symm ▸ rfl
  refine ⟨rfl, hcenter, ?_⟩
  intro x i j hi hj hij hxi hxj
  unfold expandWithContext
  rw [List.count_flatMap]
  have hget : ∀ (k : Nat) (hk : k < msgs.length),
      (msgs.map (List.count x ∘ fun m => contextWindow s m.id cb ca)).get
        ⟨k, by rw [List.length_map]; exact hk⟩ =
      List.count x (contextWindow s (msgs.get ⟨k, hk⟩).id cb ca) := by
    intro k hk
    simp [List.get_eq_getElem, List.getElem_map]
  rcases Nat.lt_or_ge i j with hlt | hge
  · have hjm : j < (msgs.map
        (List.count x ∘ fun m => contextWindow s m.id cb ca)).length := by
      rw [List.length_map]; exact hj
    refine two_le_sum_of_two hlt hjm ?_ ?_
    · rw [hget i hi]
      exact List.count_pos_iff.mpr hxi
    · rw [hget j hj]
      exact List.count_pos_iff.mpr hxj
  · have hlt : j < i := Nat.lt_of_le_of_ne hge (Ne.symm hij)
    have him : i < (msgs.map
        (List.count x ∘ fun m => contextWindow s m.id cb ca)).length := by
      rw [List.length_map]; exact hi
    refine two_le_sum_of_two hlt him ?_ ?_
    · rw [hget j hj]
      exact List.count_pos_iff.mpr hxj
    · rw [hget i hi]
      exact List.count_pos_iff.mpr hxi

/-- C5 counterexample: with a before-window of two, the single matched
message m3 expands to a window that is not internally chronological (the
before part comes newest-first). -/
theorem claim5_expansion_counterexample :
    listMessagesMsgs exStore ⟨none, none, none, none, some "bye"⟩ 10 0 =
      .ok [msgM3] ∧
    chronB (expandWithContext exStore [msgM3] 2 0) = false := ⟨rfl, rfl⟩

/-- Witness for C5 amended at exStore: message m2 lies in the windows of both
matched messages, so it appears at least twice in the expansion. -/
theorem claim5_expansion_amended_witness :
    2 ≤ (expandWithContext exStore [msgM3, msgM2] 1 1).count msgM2 := by
  have h := @claim5_expansion_amended exStore noFilter 2 0 1 1 [msgM3, msgM2]
    rfl (by decide)
  exact h.2.2 msgM2 0 1 (by decide) (by decide) (by decide) (by decide)
    (by decide)

/-! ### Substring occurrence machinery for the formatter claim -/

theorem startsWithChars_iff {n l : List Char} :
    startsWithChars l n = true ↔ n <+: l := by
  induction n generalizing l with
  | nil =>
    constructor
    · intro _
      exact ⟨l, rfl⟩
    · intro _
      cases l <;> rfl
  | cons b bs ih =>
    cases l with
    | nil =>
      constructor
      · intro h
        exact absurd h (by simp [startsWithChars])
      · intro h
        rcases h with ⟨t, ht⟩
        exact absurd ht (by simp)
    | cons a as =>
      constructor
      · intro h
        simp only [startsWithChars, Bool.and_eq_true, beq_iff_eq] at h
        exact List.cons_prefix_cons.mpr ⟨h.1.symm, ih.mp h.2⟩
      · intro h
        rcases List.cons_prefix_cons.mp h with ⟨hba, hbs⟩
        simp only [startsWithChars, Bool.and_eq_true, beq_iff_eq]
        exact ⟨hba.symm, ih.mpr hbs⟩

theorem isSub_cons_iff {a : Char} {as n : List Char} :
    n <:+: (a :: as) ↔ n <+: (a :: as) ∨ n <:+: as := by
  constructor
  · rintro ⟨s, t, hst⟩
    cases s with
    | nil => exact Or.inl ⟨t, by simpa using hst⟩
    | cons b bs =>
      right
      rw [List.cons_append, List.cons_append] at hst
      injection hst with h1 h2
      exact ⟨bs, t, h2⟩
  · rintro (⟨t, ht⟩ | ⟨s, t, hst⟩)
    · exact ⟨[], t, by simpa using ht⟩
    · refine ⟨a :: s, t, ?_⟩
      rw [List.cons_append, List.cons_append, hst]

theorem hasSubChars_iff {l n : List Char} : hasSubChars l n = true ↔ n <:+: l := by
  induction l with
  | nil =>
    constructor
    · intro h
      have hn : n = [] := by
        cases n with
        | nil => rfl
        | cons b bs => exact absurd h (by simp [hasSubChars])
      subst hn
      exact ⟨[], [], rfl⟩
    · rintro ⟨s, t, hst⟩
      rcases List.append_eq_nil.mp hst with ⟨h1, h2⟩
      rcases List.append_eq_nil.mp h1 with ⟨h3, h4⟩
      subst h4
      rfl
  | cons a as ih =>
    rw [show hasSubChars (a :: as) n =
        (startsWithChars (a :: as) n || hasSubChars as n) from rfl,
      Bool.or_eq_true, startsWithChars_iff, ih, isSub_cons_iff]

theorem containsSub_eq_false_iff {hay needle : String} :
    containsSub hay needle = false ↔ ¬ needle.data <:+: hay.data := by
  unfold containsSub
  rw [← hasSubChars_iff]
  simp

theorem preOfAppend {n x y : List Char} (h : n <+: x ++ y) :
    n <+: x ∨ ∃ n₂, n = x ++ n₂ ∧ n₂ <+: y := by
  induction x generalizing n with
  | nil => exact Or.inr ⟨n, rfl, by simpa using h⟩
  | cons c cs ih =>
    cases n with
    | nil => exact Or.inl ⟨c :: cs, rfl⟩
    | cons d ds =>
      rw [List.cons_append, List.cons_prefix_cons] at h
      rcases h with ⟨hdc, hds⟩
      subst hdc
      rcases ih hds with h' | ⟨n₂, hn₂, hp⟩
      · exact Or.inl (List.cons_prefix_cons.mpr ⟨rfl, h'⟩)
      · refine Or.inr ⟨n₂, ?_, hp⟩
        rw [List.cons_append, hn₂]

theorem sufExtend {n : List Char} {a : Char} {as : List Char} (h : n <:+ as) :
    n <:+ (a :: as) := by
  rcases h with ⟨t, ht⟩
  refine ⟨a :: t, ?_⟩
  rw [List.cons_append, ht]

theorem not_isSub_append {n a b : List Char} (ha : ¬ n <:+: a) (hb : ¬ n <:+: b)
    (hsplit : ∀ n₁ n₂, n₁ ++ n₂ = n → n₁ ≠ [] → n₂ ≠ [] →
      ¬ (n₁ <:+ a ∧ n₂ <+: b)) :
    ¬ n <:+: (a ++ b) := by
  induction a with
  | nil => simpa using hb
  | cons x xs ih =>
    intro hsub
    rw [List.cons_append] at hsub
    rcases isSub_cons_iff.mp hsub with hpre | hsub'
    · have hpre' : n <+: (x :: xs) ++ b := by simpa using hpre
      rcases preOfAppend hpre' with h' | ⟨n₂, hn₂, hp⟩
      · rcases h' with ⟨t, ht⟩
        exact ha ⟨[], t, by simpa using ht⟩
      · by_cases hn₂e : n₂ = []
        · subst hn₂e
          refine ha ⟨[], [], ?_⟩
          rw [hn₂]
          simp
        · exact hsplit (x :: xs) n₂ hn₂.symm (List.cons_ne_nil x xs) hn₂e
            ⟨List.suffix_refl _, hp⟩
    · have ha' : ¬ n <:+: xs := fun h' => ha (isSub_cons_iff.mpr (Or.inr h'))
      have hsplit' : ∀ n₁ n₂, n₁ ++ n₂ = n → n₁ ≠ [] → n₂ ≠ [] →
          ¬ (n₁ <:+ xs ∧ n₂ <+: b) := by
        intro n₁ n₂ he h1 h2 hc
        exact hsplit n₁ n₂ he h1 h2 ⟨sufExtend hc.1, hc.2⟩
      exact ih ha' hsplit' hsub'

/-- The character list of the forbidden substring of the formatter claim. -/
def chatNeedle : List Char := ['C', 'h', 'a', 't', ':']

theorem not_chatNeedle_append {a b : List Char}
    (ha : ¬ chatNeedle <:+: a) (hb : ¬ chatNeedle <:+: b)
    (h1 : ¬ (['C'] <:+ a ∧ ['h', 'a', 't', ':'] <+: b))
    (h2 : ¬ (['C', 'h'] <:+ a ∧ ['a', 't', ':'] <+: b))
    (h3 : ¬ (['C', 'h', 'a'] <:+ a ∧ ['t', ':'] <+: b))
    (h4 : ¬ (['C', 'h', 'a', 't'] <:+ a ∧ [':'] <+: b)) :
    ¬ chatNeedle <:+: (a ++ b) := by
  refine not_isSub_append ha hb ?_
  intro n₁ n₂ heq hn₁ hn₂
  unfold chatNeedle at heq
  rcases n₁ with _ | ⟨c1, n₁⟩
  · exact absurd rfl hn₁
  rw [List.cons_append] at heq
  injection heq with hc1 heq
  subst hc1
  rcases n₁ with _ | ⟨c2, n₁⟩
  · rw [List.nil_append] at heq
    subst heq
    exact h1
  rw [List.cons_append] at heq
  injection heq with hc2 heq
  subst hc2
  rcases n₁ with _ | ⟨c3, n₁⟩
  · rw [List.nil_append] at heq
    subst heq
    exact h2
  rw [List.cons_append] at heq
  injection heq with hc3 heq
  subst hc3
  rcases n₁ with _ | ⟨c4, n₁⟩
  · rw [List.nil_append] at heq
    subst heq
    exact h3
  rw [List.cons_append] at heq
  injection heq with hc4 heq
  subst hc4
  rcases n₁ with _ | ⟨c5, n₁⟩
  · rw [List.nil_append] at heq
    subst heq
    exact h4
  rw [List.cons_append] at heq
  injection heq with hc5 heq
  rcases List.append_eq_nil.mp heq with ⟨_, h2e⟩
  exact absurd h2e hn₂

theorem not_suf_of_not_mem {n l : List Char} {c : Char} (hc : c ∈ n)
    (hl : c ∉ l) : ¬ n <:+ l := fun h => hl (h.subset hc)

theorem not_isSub_of_not_mem {n l : List Char} {c : Char} (hc : c ∈ n)
    (hl : c ∉ l) : ¬ n <:+: l := fun h => hl (h.subset hc)

theorem head_of_pre {c : Char} {n l : List Char} (h : (c :: n) <+: l) :
    l.head? = some c := by
  rcases h with ⟨t, ht⟩
  rw [← ht]
  rfl

theorem head?_append_left {a b : List Char} {c : Char} (h : a.head? = some c) :
    (a ++ b).head? = some c := by
  cases a with
  | nil => cases h
  | cons x xs => simpa using h

theorem split_discharge_head {n₁ : List Char} {d : Char} {n a b : List Char}
    {k : Char} (hb : b.head? = some k) (hne : d ≠ k) :
    ¬ (n₁ <:+ a ∧ (d :: n) <+: b) := by
  intro hc
  have h1 := head_of_pre hc.2
  rw [hb] at h1
  exact hne (Option.some.inj h1).symm

theorem digitChar_ne_C {c : Char} (h : isDigitChar c = true) :
    'C' ≠ (if c = 'T' then ' ' else c) := by
  simp only [isDigitChar, Bool.and_eq_true, decide_eq_true_eq] at h
  by_cases hT : c = 'T'
  · rw [if_pos hT]
    decide
  · rw [if_neg hT]
    intro hc
    rw [← hc] at h
    exact absurd h.2 (by decide)

theorem fmtDisplay_no_C {t : String} (h : isCanonTS t = true) :
    'C' ∉ (fmtDisplay t).data := by
  cases t with
  | mk data =>
    unfold isCanonTS at h
    rcases data with _ | ⟨y1, data⟩
    · exact Bool.noConfusion h
    rcases data with _ | ⟨y2, data⟩
    · exact Bool.noConfusion h
    rcases data with _ | ⟨y3, data⟩
    · exact Bool.noConfusion h
    rcases data with _ | ⟨y4, data⟩
    · exact Bool.noConfusion h
    rcases data with _ | ⟨p1, data⟩
    · exact Bool.noConfusion h
    rcases data with _ | ⟨o1, data⟩
    · exact Bool.noConfusion h
    rcases data with _ | ⟨o2, data⟩
    · exact Bool.noConfusion h
    rcases data with _ | ⟨p2, data⟩
    · exact Bool.noConfusion h
    rcases data with _ | ⟨d1, data⟩
    · exact Bool.noConfusion h
    rcases data with _ | ⟨d2, data⟩
    · exact Bool.noConfusion h
    rcases data with _ | ⟨tc, data⟩
    · exact Bool.noConfusion h
    rcases data with _ | ⟨g1, data⟩
    · exact Bool.noConfusion h
    rcases data with _ | ⟨g2, data⟩
    · exact Bool.noConfusion h
    rcases data with _ | ⟨q1, data⟩
    · exact Bool.noConfusion h
    rcases data with _ | ⟨n1, data⟩
    · exact Bool.noConfusion h
    rcases data with _ | ⟨n2, data⟩
    · exact Bool.noConfusion h
    rcases data with _ | ⟨q2, data⟩
    · exact Bool.noConfusion h
    rcases data with _ | ⟨e1, data⟩
    · exact Bool.noConfusion h
    rcases data with _ | ⟨e2, data⟩
    · exact Bool.noConfusion h
    rcases data with _ | ⟨z, data⟩
    · exact Bool.noConfusion h
    rcases data with _ | ⟨w, data⟩
    case cons => exact Bool.noConfusion h
    simp only [Bool.and_eq_true, beq_iff_eq, and_assoc] at h
    obtain ⟨hy1, hy2, hy3, hy4, hp1, ho1, ho2, hp2, hd1, hd2, htc, hg1, hg2,
      hq1, hn1, hn2, hq2, he1, he2, hz⟩ := h
    subst hp1
    subst hp2
    subst htc
    subst hq1
    subst hq2
    show 'C' ∉ [if y1 = 'T' then ' ' else y1, if y2 = 'T' then ' ' else y2,
      if y3 = 'T' then ' ' else y3, if y4 = 'T' then ' ' else y4,
      if '-' = 'T' then ' ' else '-', if o1 = 'T' then ' ' else o1,
      if o2 = 'T' then ' ' else o2, if '-' = 'T' then ' ' else '-',
      if d1 = 'T' then ' ' else d1, if d2 = 'T' then ' ' else d2,
      if 'T' = 'T' then ' ' else 'T', if g1 = 'T' then ' ' else g1,
      if g2 = 'T' then ' ' else g2, if ':' = 'T' then ' ' else ':',
      if n1 = 'T' then ' ' else n1, if n2 = 'T' then ' ' else n2,
      if ':' = 'T' then ' ' else ':', if e1 = 'T' then ' ' else e1,
      if e2 = 'T' then ' ' else e2]
    intro hmem
    simp only [List.mem_cons, List.not_mem_nil, or_false] at hmem
    rcases hmem with h | h | h | h | h | h | h | h | h | h | h | h | h | h |
      h | h | h | h | h
    all_goals first
      | exact absurd h (by decide)
      | exact digitChar_ne_C hy1 h
      | exact digitChar_ne_C hy2 h
      | exact digitChar_ne_C hy3 h
      | exact digitChar_ne_C hy4 h
      | exact digitChar_ne_C ho1 h
      | exact digitChar_ne_C ho2 h
      | exact digitChar_ne_C hd1 h
      | exact digitChar_ne_C hd2 h
      | exact digitChar_ne_C hg1 h
      | exact digitChar_ne_C hg2 h
      | exact digitChar_ne_C hn1 h
      | exact digitChar_ne_C hn2 h
      | exact digitChar_ne_C he1 h
      | exact digitChar_ne_C he2 h

/-- C8 amended: the formatter itself never emits the chat-info bracket when
showChatInfo is unset; the output can contain the substring Chat: only when
one of the message's own rendered parts injects it. Whenever the resolved
sender, the content, the media type, the message id and the chat jid do not
contain Chat:, the resolved sender does not end in Chat, and the timestamp is
canonical, the formatted line does not contain Chat:. -/
theorem claim8_format_amended (s : Store) (m : Message)
    (ht : isCanonTS m.timestamp = true)
    (hsender : containsSub (senderDisplay s m) "Chat:" = false)
    (hsender2 : ¬ (['C', 'h', 'a', 't'] <:+ (senderDisplay s m).data))
    (hcontent : containsSub m.content "Chat:" = false)
    (hmedia : ∀ mt, m.media_type = some mt → containsSub mt "Chat:" = false)
    (hid : containsSub m.id "Chat:" = false)
    (hjid : containsSub m.chat_jid "Chat:" = false) :
    containsSub (formatMessage s m false) "Chat:" = false := by
  have hS : ¬ chatNeedle <:+: (senderDisplay s m).data :=
    containsSub_eq_false_iff.mp hsender
  have hCn : ¬ chatNeedle <:+: m.content.data :=
    containsSub_eq_false_iff.mp hcontent
  have hId : ¬ chatNeedle <:+: m.id.data := containsSub_eq_false_iff.mp hid
  have hJd : ¬ chatNeedle <:+: m.chat_jid.data := containsSub_eq_false_iff.mp hjid
  have hTC : 'C' ∉ (fmtDisplay m.timestamp).data := fmtDisplay_no_C ht
  have R1 : ¬ chatNeedle <:+: (m.content.data ++ "\n".data) :=
    not_chatNeedle_append hCn (by decide)
      (split_discharge_head rfl (by decide))
      (split_discharge_head rfl (by decide))
      (split_discharge_head rfl (by decide))
      (split_discharge_head rfl (by decide))
  have hPrest : ¬ chatNeedle <:+:
      ((contentPrefixOf m).data ++ (m.content.data ++ "\n".data)) := by
    rcases hmtc : m.media_type with _ | mt
    · have hP0 : contentPrefixOf m = "" := by simp [contentPrefixOf, hmtc]
      rw [hP0]
      simpa using R1
    · by_cases hmt0 : mt = ""
      · have hP0 : contentPrefixOf m = "" := by
          simp [contentPrefixOf, hmtc, hmt0]
        rw [hP0]
        simpa using R1
      · have hPeq : contentPrefixOf m =
            "[" ++ mt ++ " - Message ID: " ++ m.id ++ " - Chat JID: " ++
              m.chat_jid ++ "] " := by
          simp [contentPrefixOf, hmtc, hmt0]
        rw [hPeq]
        have hMt : ¬ chatNeedle <:+: mt.data :=
          containsSub_eq_false_iff.mp (hmedia mt hmtc)
        have Q1 : ¬ chatNeedle <:+:
            ("] ".data ++ (m.content.data ++ "\n".data)) :=
          not_chatNeedle_append (by decide) R1
            (fun hc => absurd hc.1 (by decide))
            (fun hc => absurd hc.1 (by decide))
            (fun hc => absurd hc.1 (by decide))
            (fun hc => absurd hc.1 (by decide))
        have Q2 : ¬ chatNeedle <:+:
            (m.chat_jid.data ++ ("] ".data ++ (m.content.data ++ "\n".data))) :=
          not_chatNeedle_append hJd Q1
            (split_discharge_head (head?_append_left rfl) (by decide))
            (split_discharge_head (head?_append_left rfl) (by decide))
            (split_discharge_head (head?_append_left rfl) (by decide))
            (split_discharge_head (head?_append_left rfl) (by decide))
        have Q3 : ¬ chatNeedle <:+: (" - Chat JID: ".data ++
            (m.chat_jid.data ++ ("] ".data ++ (m.content.data ++ "\n".data)))) :=
          not_chatNeedle_append (by decide) Q2
            (fun hc => absurd hc.1 (by decide))
            (fun hc => absurd hc.1 (by decide))
            (fun hc => absurd hc.1 (by decide))
            (fun hc => absurd hc.1 (by decide))
        have Q4 : ¬ chatNeedle <:+: (m.id.data ++ (" - Chat JID: ".data ++
            (m.chat_jid.data ++ ("] ".data ++
              (m.content.data ++ "\n".data))))) :=
          not_chatNeedle_append hId Q3
            (split_discharge_head (head?_append_left rfl) (by decide))
            (split_discharge_head (head?_append_left rfl) (by decide))
            (split_discharge_head (head?_append_left rfl) (by decide))
            (split_discharge_head (head?_append_left rfl) (by decide))
        have Q5 : ¬ chatNeedle <:+: (" - Message ID: ".data ++
            (m.id.data ++ (" - Chat JID: ".data ++ (m.chat_jid.data ++
              ("] ".data ++ (m.content.data ++ "\n".data)))))) :=
          not_chatNeedle_append (by decide) Q4
            (fun hc => absurd hc.1 (by decide))
            (fun hc => absurd hc.1 (by decide))
            (fun hc => absurd hc.1 (by decide))
            (fun hc => absurd hc.1 (by decide))
        have Q6 : ¬ chatNeedle <:+: (mt.data ++ (" - Message ID: ".data ++
            (m.id.data ++ (" - Chat JID: ".data ++ (m.chat_jid.data ++
              ("] ".data ++ (m.content.data ++ "\n".data))))))) :=
          not_chatNeedle_append hMt Q5
            (split_discharge_head (head?_append_left rfl) (by decide))
            (split_discharge_head (head?_append_left rfl) (by decide))
            (split_discharge_head (head?_append_left rfl) (by decide))
            (split_discharge_head (head?_append_left rfl) (by decide))
        have Q7 : ¬ chatNeedle <:+: ("[".data ++ (mt.data ++
            (" - Message ID: ".data ++ (m.id.data ++ (" - Chat JID: ".data ++
              (m.chat_jid.data ++ ("] ".data ++
                (m.content.data ++ "\n".data)))))))) :=
          not_chatNeedle_append (by decide) Q6
            (fun hc => absurd hc.1 (by decide))
            (fun hc => absurd hc.1 (by decide))
            (fun hc => absurd hc.1 (by decide))
            (fun hc => absurd hc.1 (by decide))
        simpa only [String.data_append, List.append_assoc] using Q7
  have R3 : ¬ chatNeedle <:+: (": ".data ++
      ((contentPrefixOf m).data ++ (m.content.data ++ "\n".data))) :=
    not_chatNeedle_append (by decide) hPrest
      (fun hc => absurd hc.1 (by decide))
      (fun hc => absurd hc.1 (by decide))
      (fun hc => absurd hc.1 (by decide))
      (fun hc => absurd hc.1 (by decide))
  have R4 : ¬ chatNeedle <:+: ((senderDisplay s m).data ++ (": ".data ++
      ((contentPrefixOf m).data ++ (m.content.data ++ "\n".data)))) :=
    not_chatNeedle_append hS R3
      (split_discharge_head (head?_append_left rfl) (by decide))
      (split_discharge_head (head?_append_left rfl) (by decide))
      (split_discharge_head (head?_append_left rfl) (by decide))
      (fun hc => hsender2 hc.1)
  have R5 : ¬ chatNeedle <:+: ("From: ".data ++ ((senderDisplay s m).data ++
      (": ".data ++ ((contentPrefixOf m).data ++
        (m.content.data ++ "\n".data))))) :=
    not_chatNeedle_append (by decide) R4
      (fun hc => absurd hc.1 (by decide))
      (fun hc => absurd hc.1 (by decide))
      (fun hc => absurd hc.1 (by decide))
      (fun hc => absurd hc.1 (by decide))
  have R6 : ¬ chatNeedle <:+: ("] ".data ++ ("From: ".data ++
      ((senderDisplay s m).data ++ (": ".data ++ ((contentPrefixOf m).data ++
        (m.content.data ++ "\n".data)))))) :=
    not_chatNeedle_append (by decide) R5
      (fun hc => absurd hc.1 (by decide))
      (fun hc => absurd hc.1 (by decide))
      (fun hc => absurd hc.1 (by decide))
      (fun hc => absurd hc.1 (by decide))
  have R7 : ¬ chatNeedle <:+: ((fmtDisplay m.timestamp).data ++ ("] ".data ++
      ("From: ".data ++ ((senderDisplay s m).data ++ (": ".data ++
        ((contentPrefixOf m).data ++ (m.content.data ++ "\n".data))))))) :=
    not_chatNeedle_append (not_isSub_of_not_mem (by decide) hTC) R6
      (fun hc => (not_suf_of_not_mem (by decide) hTC) hc.1)
      (fun hc => (not_suf_of_not_mem (by decide) hTC) hc.1)
      (fun hc => (not_suf_of_not_mem (by decide) hTC) hc.1)
      (fun hc => (not_suf_of_not_mem (by decide) hTC) hc.1)
  have R8 : ¬ chatNeedle <:+: ("[".data ++ ((fmtDisplay m.timestamp).data ++
      ("] ".data ++ ("From: ".data ++ ((senderDisplay s m).data ++ (": ".data ++
        ((contentPrefixOf m).data ++ (m.content.data ++ "\n".data)))))))) :=
    not_chatNeedle_append (by decide) R7
      (fun hc => absurd hc.1 (by decide))
      (fun hc => absurd hc.1 (by decide))
      (fun hc => absurd hc.1 (by decide))
      (fun hc => absurd hc.1 (by decide))
  have hfm : formatMessage s m false =
      "[" ++ fmtDisplay m.timestamp ++ "] " ++ "From: " ++ senderDisplay s m ++
        ": " ++ contentPrefixOf m ++ m.content ++ "\n" := rfl
  rw [containsSub_eq_false_iff, hfm]
  simpa only [String.data_append, List.append_assoc] using R8

/-- C8 counterexample: a message whose content itself holds the text Chat:
makes the showChatInfo-false output contain Chat:, so the claim quantified
over all content values fails. -/
theorem claim8_format_counterexample :
    containsSub (formatMessage exStore
      ⟨ts1, "111@s.whatsapp.net", "Chat: hello", true, "111@s.whatsapp.net",
       "m9", none, none⟩ false) "Chat:" = true := rfl

/-- A message of exStore whose resolved sender is Alice, used as the C8
witness input. -/
def mWitness : Message :=
  ⟨ts1, "111@s.whatsapp.net", "hi there", false, "111@s.whatsapp.net", "m1",
   some "Alice", none⟩

/-- Witness for C8 amended at a concrete store and message. -/
theorem claim8_format_amended_witness :
    containsSub (formatMessage exStore mWitness false) "Chat:" = false :=
  claim8_format_amended exStore mWitness (by decide) (by decide) (by decide)
    (by decide) (fun mt h => Option.noConfusion h) (by decide) (by decide)
